import Mathlib

/-!
Verification of the `mlp` numerical core: the sum-of-squared-differences
error function (`mlp/errors.py`) and the parameter initialisers
(`mlp/initialisers.py`).

Embedding conventions:
* A batch tensor of shape `(batch_size, output_dim)` is a
  `Matrix (Fin b) (Fin d)` over an exact field (`ℚ` for the error
  functions, `ℝ` for the stochastic initialisers, whose formulas
  involve square roots).  Floating-point arithmetic is modelled as
  exact field arithmetic.
* A numpy `RandomState` is modelled as a pure state: a seed together
  with a position in that seed's raw output stream.  The raw streams
  themselves (`u` for `random_sample`, i.e. uniform draws on `[0, 1)`,
  and `g` for standard normal draws) are parameters of the
  development, since a seeded generator is a deterministic function of
  its seed and of how far it has been advanced.  numpy's
  `uniform(low, high)` is `low + (high - low) * random_sample()` and
  `normal(loc, scale)` is `loc + scale * standard_normal()`.
* Python methods become functions in a namespace named after the
  class; `__call__` becomes `call`, `__init__` becomes `init`.
-/

namespace MLP

/-! ## `mlp/errors.py` -/

namespace SumOfSquaredDiffsError

/-- Embeds `SumOfSquaredDiffsError.__call__`:
`1 / outputs.shape[0] * 0.5 * np.square(outputs - targets).sum()`.
`np.square(outputs - targets).sum()` sums the squared elementwise
differences over all elements of the batch. -/
def call (b d : ℕ) (outputs targets : Matrix (Fin b) (Fin d) ℚ) : ℚ :=
  1 / (b : ℚ) * (1 / 2) * ∑ p : Fin b × Fin d, (outputs p.1 p.2 - targets p.1 p.2) ^ 2

/-- Embeds `SumOfSquaredDiffsError.grad`:
`1 / outputs.shape[0] * (outputs - targets)`, elementwise. -/
def grad (b d : ℕ) (outputs targets : Matrix (Fin b) (Fin d) ℚ) :
    Matrix (Fin b) (Fin d) ℚ :=
  fun i j => 1 / (b : ℚ) * (outputs i j - targets i j)

/-- The matrix `outputs` with `h` added to its `(i, j)` entry and every
other entry unchanged: the elementary perturbation used to state that
`grad` is the exact analytic derivative of `call`. -/
def addAt (b d : ℕ) (outputs : Matrix (Fin b) (Fin d) ℚ) (i : Fin b) (j : Fin d)
    (h : ℚ) : Matrix (Fin b) (Fin d) ℚ :=
  fun a c => if a = i ∧ c = j then outputs a c + h else outputs a c

/-- numpy broadcasting semantics of `outputs - targets` inside
`SumOfSquaredDiffsError.__call__` for the mismatched-shape case where
`targets` has shape `(1, d)` while `outputs` has shape `(b, d)`: the
single row of `targets` is silently replicated across all `b` rows and
the call returns a scalar instead of failing. -/
def callRowBroadcast (b d : ℕ) (outputs : Matrix (Fin b) (Fin d) ℚ)
    (targets : Matrix (Fin 1) (Fin d) ℚ) : ℚ :=
  1 / (b : ℚ) * (1 / 2) * ∑ p : Fin b × Fin d, (outputs p.1 p.2 - targets 0 p.2) ^ 2

end SumOfSquaredDiffsError

end MLP

namespace MLP

/-! ## Theorems about the error function -/

/-- Claim C1: for every pair of same-shape batches (shape enforced by
the matrix types), `SumOfSquaredDiffsError.__call__` returns
`(1 / batch_size) * 0.5 *` the sum over all elements of
`(outputs - targets)^2` (the sum written here as an iterated row/column
sum); in particular on `outputs = [[1, 2]]`, `targets = [[0, 0]]` it
returns `2.5`. -/
theorem sumOfSquaredDiffsError_call_spec :
    (∀ (b d : ℕ) (outputs targets : Matrix (Fin b) (Fin d) ℚ),
      SumOfSquaredDiffsError.call b d outputs targets =
        1 / (b : ℚ) * (1 / 2) * ∑ i : Fin b, ∑ j : Fin d, (outputs i j - targets i j) ^ 2) ∧
    SumOfSquaredDiffsError.call 1 2 !![1, 2] !![0, 0] = 5 / 2 := by
  constructor
  · intro b d outputs targets
    rw [SumOfSquaredDiffsError.call, Fintype.sum_prod_type]
  · rw [SumOfSquaredDiffsError.call, Fintype.sum_prod_type]
    simp [Fin.sum_univ_two]
    norm_num

/-- Claim C2: `SumOfSquaredDiffsError.grad` returns a tensor of the
same shape as `outputs` (enforced by its type) whose `(i, j)` element
is `(1 / batch_size) * (outputs i j - targets i j)` — no `0.5` factor —
and this is the exact analytic derivative of `call` with respect to
`outputs`: perturbing one output element by `h` changes `call` by
exactly `h * grad i j` plus the second-order term `h^2 / (2 b)`. -/
theorem sumOfSquaredDiffsError_grad_spec :
    (∀ (b d : ℕ) (outputs targets : Matrix (Fin b) (Fin d) ℚ) (i : Fin b) (j : Fin d),
      SumOfSquaredDiffsError.grad b d outputs targets i j =
        1 / (b : ℚ) * (outputs i j - targets i j)) ∧
    (∀ (b d : ℕ) (outputs targets : Matrix (Fin b) (Fin d) ℚ) (i : Fin b) (j : Fin d) (h : ℚ),
      SumOfSquaredDiffsError.call b d (SumOfSquaredDiffsError.addAt b d outputs i j h) targets =
        SumOfSquaredDiffsError.call b d outputs targets +
          h * SumOfSquaredDiffsError.grad b d outputs targets i j +
          h ^ 2 * (1 / 2) * (1 / (b : ℚ))) := by
  constructor
  · intro b d outputs targets i j
    rfl
  · intro b d outputs targets i j h
    rw [SumOfSquaredDiffsError.call, SumOfSquaredDiffsError.call,
      SumOfSquaredDiffsError.grad,
      ← Finset.sum_erase_add _ _ (Finset.mem_univ (i, j)),
      ← Finset.sum_erase_add _ _ (Finset.mem_univ (i, j))]
    have hs :
        (∑ p ∈ Finset.univ.erase (i, j),
            (SumOfSquaredDiffsError.addAt b d outputs i j h p.1 p.2 - targets p.1 p.2) ^ 2) =
          ∑ p ∈ Finset.univ.erase (i, j), (outputs p.1 p.2 - targets p.1 p.2) ^ 2 := by
      refine Finset.sum_congr rfl ?_
      intro p hp
      have hne : p ≠ (i, j) := Finset.ne_of_mem_erase hp
      have hcond : ¬(p.1 = i ∧ p.2 = j) := by
        intro hc
        exact hne (Prod.ext hc.1 hc.2)
      rw [SumOfSquaredDiffsError.addAt, if_neg hcond]
    have hat :
        SumOfSquaredDiffsError.addAt b d outputs i j h (i, j).1 (i, j).2 = outputs i j + h := by
      rw [SumOfSquaredDiffsError.addAt]
      simp
    rw [hs, hat]
    ring

/-- Claim C10: the error value is non-negative, and it is zero exactly
when `outputs = targets` (elementwise), for every batch with
`batch_size ≥ 1`. -/
theorem sumOfSquaredDiffsError_call_nonneg_zero_iff (b d : ℕ) (hb : 1 ≤ b)
    (outputs targets : Matrix (Fin b) (Fin d) ℚ) :
    0 ≤ SumOfSquaredDiffsError.call b d outputs targets ∧
      (SumOfSquaredDiffsError.call b d outputs targets = 0 ↔ outputs = targets) := by
  have hbpos : (0 : ℚ) < 1 / (b : ℚ) * (1 / 2) := by
    have : (0 : ℚ) < (b : ℚ) := by exact_mod_cast hb
    positivity
  have hsum : (0 : ℚ) ≤ ∑ p : Fin b × Fin d, (outputs p.1 p.2 - targets p.1 p.2) ^ 2 :=
    Finset.sum_nonneg fun p _ => sq_nonneg _
  constructor
  · exact mul_nonneg hbpos.le hsum
  · rw [SumOfSquaredDiffsError.call]
    constructor
    · intro h0
      have hz : (∑ p : Fin b × Fin d, (outputs p.1 p.2 - targets p.1 p.2) ^ 2) = 0 := by
        rcases mul_eq_zero.mp h0 with hc | hsz
        · exact absurd hc hbpos.ne.symm
        · exact hsz
      have hall := (Finset.sum_eq_zero_iff_of_nonneg fun p _ => sq_nonneg
        (outputs p.1 p.2 - targets p.1 p.2)).mp hz
      funext i j
      have := hall (i, j) (Finset.mem_univ _)
      have hdiff : outputs i j - targets i j = 0 := by
        exact pow_eq_zero_iff (two_ne_zero) |>.mp this
      linarith
    · intro he
      rw [he]
      simp

/-- Closed witness for claim C10 at `b = d = 1`. -/
theorem sumOfSquaredDiffsError_call_nonneg_zero_iff_witness :
    1 ≤ 1 ∧
      (0 ≤ SumOfSquaredDiffsError.call 1 1 !![(3 : ℚ)] !![1] ∧
        (SumOfSquaredDiffsError.call 1 1 !![(3 : ℚ)] !![1] = 0 ↔ !![(3 : ℚ)] = !![1])) :=
  ⟨le_refl 1, sumOfSquaredDiffsError_call_nonneg_zero_iff 1 1 (le_refl 1) !![3] !![1]⟩

/-! ## `mlp/initialisers.py` -/

/-- Modelled from the spec: `DEFAULT_SEED`, the process-wide default
seed, is imported from the `mlp` package root, whose module is not part
of the shown sources; the spec fixes only that it is a single
process-wide constant, so its concrete value here is arbitrary. -/
def DEFAULT_SEED : ℕ := 123456

/-- A numpy `RandomState`: a seed and the number of raw draws already
consumed from that seed's stream.  Constructing
`np.random.RandomState(seed)` yields `⟨seed, 0⟩`. -/
structure Rng where
  seed : ℕ
  counter : ℕ
  deriving DecidableEq

/-- The generator after consuming `n` further raw draws. -/
def Rng.advance (r : Rng) (n : ℕ) : Rng := ⟨r.seed, r.counter + n⟩

/-- Embeds `rng.uniform(low=low, high=high, size=(b, d))`: numpy computes
`low + (high - low) * random_sample()` per element, where `u s k` is
the `k`-th raw `random_sample` draw (a value in `[0, 1)`) of the stream
seeded with `s`; elements are filled in row-major order, each from a
fresh raw draw. -/
noncomputable def Rng.uniform (u : ℕ → ℕ → ℝ) (r : Rng) (low high : ℝ) (b d : ℕ) :
    Matrix (Fin b) (Fin d) ℝ :=
  fun i j => low + (high - low) * u r.seed (r.counter + ((i : ℕ) * d + (j : ℕ)))

/-- Embeds `rng.normal(loc=loc, scale=scale, size=(b, d))`: numpy computes
`loc + scale * standard_normal()` per element, where `g s k` is the
`k`-th raw standard-normal draw of the stream seeded with `s`. -/
noncomputable def Rng.normal (g : ℕ → ℕ → ℝ) (r : Rng) (loc scale : ℝ) (b d : ℕ) :
    Matrix (Fin b) (Fin d) ℝ :=
  fun i j => loc + scale * g r.seed (r.counter + ((i : ℕ) * d + (j : ℕ)))

namespace ConstantInit

/-- Embeds `ConstantInit.__init__`, which stores `value`. -/
structure State where
  value : ℚ

/-- Embeds `ConstantInit.__call__`: `np.ones(shape=shape) * self.value`. -/
def call (s : State) (b d : ℕ) : Matrix (Fin b) (Fin d) ℚ :=
  fun _ _ => 1 * s.value

end ConstantInit

namespace UniformInit

/-- Embeds `UniformInit.__init__`, which stores `low`, `high` and the generator:
the one supplied, or a fresh `np.random.RandomState(DEFAULT_SEED)`
when `rng is None`.  No validation of `low`/`high` is performed. -/
structure State where
  low : ℝ
  high : ℝ
  rng : Rng

/-- Embeds `UniformInit.__init__`. -/
def init (low high : ℝ) (rng? : Option Rng) : State :=
  ⟨low, high, rng?.getD ⟨DEFAULT_SEED, 0⟩⟩

/-- Embeds `UniformInit.__call__`:
`self.rng.uniform(low=self.low, high=self.high, size=shape)`, returning
the tensor together with the instance whose owned generator has
advanced by the `b * d` raw draws consumed. -/
noncomputable def call (u : ℕ → ℕ → ℝ) (s : State) (b d : ℕ) :
    Matrix (Fin b) (Fin d) ℝ × State :=
  (Rng.uniform u s.rng s.low s.high b d, ⟨s.low, s.high, s.rng.advance (b * d)⟩)

/-- The tensor of one call, flattened to a row-major list (so that
outputs of calls with different requested shapes are comparable). -/
noncomputable def flatCall (u : ℕ → ℕ → ℝ) (s : State) (b d : ℕ) : List ℝ × State :=
  (((List.range (b * d)).map fun k =>
      s.low + (s.high - s.low) * u s.rng.seed (s.rng.counter + k)),
   ⟨s.low, s.high, s.rng.advance (b * d)⟩)

/-- The flattened output tensors of a sequence of calls with the given
shape requests, in call order. -/
noncomputable def callSeq (u : ℕ → ℕ → ℝ) (s : State) : List (ℕ × ℕ) → List (List ℝ)
  | [] => []
  | bd :: rest =>
      (flatCall u s bd.1 bd.2).1 :: callSeq u (flatCall u s bd.1 bd.2).2 rest

end UniformInit

namespace NormalInit

/-- Embeds `NormalInit.__init__`, which stores `mean`, `std` and the generator (the
supplied one, or a fresh `np.random.RandomState(DEFAULT_SEED)`).  No
validation of `std` is performed. -/
structure State where
  mean : ℝ
  std : ℝ
  rng : Rng

/-- Embeds `NormalInit.__init__`. -/
def init (mean std : ℝ) (rng? : Option Rng) : State :=
  ⟨mean, std, rng?.getD ⟨DEFAULT_SEED, 0⟩⟩

/-- Embeds `NormalInit.__call__`:
`self.rng.normal(loc=self.mean, scale=self.std, size=shape)`. -/
noncomputable def call (g : ℕ → ℕ → ℝ) (s : State) (b d : ℕ) :
    Matrix (Fin b) (Fin d) ℝ :=
  Rng.normal g s.rng s.mean s.std b d

end NormalInit

namespace SqrtInit

/-- Embeds `SqrtInit.__init__`: `self.mean = 0` and the generator. -/
structure State where
  mean : ℝ
  rng : Rng

/-- Embeds `SqrtInit.__init__`. -/
def init (rng? : Option Rng) : State :=
  ⟨0, rng?.getD ⟨DEFAULT_SEED, 0⟩⟩

/-- Embeds `SqrtInit.__call__` for a two-dimensional shape `(b, d)`:
`self.rng.normal(loc=self.mean, scale=1/np.sqrt(shape[1]), size=shape)`
— the scale divides by the square root of `shape[1]`, not `shape[0]`. -/
noncomputable def call (g : ℕ → ℕ → ℝ) (s : State) (b d : ℕ) :
    Matrix (Fin b) (Fin d) ℝ :=
  Rng.normal g s.rng s.mean (1 / Real.sqrt (d : ℝ)) b d

/-- The scale `1/np.sqrt(shape[1])` computed by `SqrtInit.__call__`
from the raw shape tuple: `shape[1]` is `none` (an `IndexError` in
Python) when the tuple has fewer than two entries. -/
noncomputable def scaleOf (shape : List ℕ) : Option ℝ :=
  Option.map (fun s1 : ℕ => 1 / Real.sqrt (s1 : ℝ)) shape[1]?

end SqrtInit

namespace XavierInit

/-- Embeds `XavierInit.__init__`, which stores only the generator. -/
structure State where
  rng : Rng

/-- Embeds `XavierInit.__init__`. -/
def init (rng? : Option Rng) : State :=
  ⟨rng?.getD ⟨DEFAULT_SEED, 0⟩⟩

/-- Embeds `XavierInit.__call__` for a two-dimensional shape `(b, d)`:
`self.rng.uniform(low=-np.sqrt(6 / (shape[0] + shape[1])),
high=np.sqrt(6 / (shape[0] + shape[1])), size=shape)`. -/
noncomputable def call (u : ℕ → ℕ → ℝ) (s : State) (b d : ℕ) :
    Matrix (Fin b) (Fin d) ℝ :=
  Rng.uniform u s.rng (-Real.sqrt (6 / ((b : ℝ) + (d : ℝ))))
    (Real.sqrt (6 / ((b : ℝ) + (d : ℝ)))) b d

end XavierInit

namespace XavierInitNormal

/-- Embeds `XavierInitNormal.__init__`: `self.mean = 0` and the generator. -/
structure State where
  mean : ℝ
  rng : Rng

/-- Embeds `XavierInitNormal.__init__`. -/
def init (rng? : Option Rng) : State :=
  ⟨0, rng?.getD ⟨DEFAULT_SEED, 0⟩⟩

/-- Embeds `XavierInitNormal.__call__` for a two-dimensional shape `(b, d)`:
`self.rng.normal(loc=self.mean,
scale=np.sqrt(2 / (shape[0] + shape[1])), size=shape)`. -/
noncomputable def call (g : ℕ → ℕ → ℝ) (s : State) (b d : ℕ) :
    Matrix (Fin b) (Fin d) ℝ :=
  Rng.normal g s.rng s.mean (Real.sqrt (2 / ((b : ℝ) + (d : ℝ)))) b d

end XavierInitNormal

namespace KaimingInit

/-- Embeds `KaimingInit.__init__`: `self.mean = 0` and the generator. -/
structure State where
  mean : ℝ
  rng : Rng

/-- Embeds `KaimingInit.__init__`. -/
def init (rng? : Option Rng) : State :=
  ⟨0, rng?.getD ⟨DEFAULT_SEED, 0⟩⟩

/-- Embeds `KaimingInit.__call__` for a two-dimensional shape `(b, d)`:
`self.rng.normal(loc=self.mean, scale=np.sqrt(2 / shape[1]),
size=shape)`. -/
noncomputable def call (g : ℕ → ℕ → ℝ) (s : State) (b d : ℕ) :
    Matrix (Fin b) (Fin d) ℝ :=
  Rng.normal g s.rng s.mean (Real.sqrt (2 / (d : ℝ))) b d

/-- The scale `np.sqrt(2 / shape[1])` computed by
`KaimingInit.__call__` from the raw shape tuple: `shape[1]` is `none`
(an `IndexError` in Python) when the tuple has fewer than two
entries. -/
noncomputable def scaleOf (shape : List ℕ) : Option ℝ :=
  Option.map (fun s1 : ℕ => Real.sqrt (2 / (s1 : ℝ))) shape[1]?

end KaimingInit

/-! ## Theorems about the initialisers -/

/-- Claim C3: for every requested shape (a pair of dimensions, enforced
by the result type) and every `value`,
`ConstantInit(value).__call__(shape)` returns a tensor of exactly that
shape in which every element equals `value`. -/
theorem constantInit_call_spec (value : ℚ) (b d : ℕ) (i : Fin b) (j : Fin d) :
    ConstantInit.call ⟨value⟩ b d i j = value :=
  one_mul value

/-- Claim C6: two `UniformInit` instances of the same strategy
parameters, each constructed with `rng=None`, both own a generator
seeded with the process-wide `DEFAULT_SEED` at stream position `0`, and
hence produce element-for-element identical output tensors for every
sequence of shape requests — for every possible raw generator stream
`u`. -/
theorem uniformInit_default_construction_reproducible (u : ℕ → ℕ → ℝ)
    (low high : ℝ) (shapes : List (ℕ × ℕ)) :
    (UniformInit.init low high none).rng = ⟨DEFAULT_SEED, 0⟩ ∧
      (UniformInit.init low high none).rng = (UniformInit.init low high none).rng ∧
      UniformInit.callSeq u (UniformInit.init low high none) shapes =
        UniformInit.callSeq u (UniformInit.init low high none) shapes :=
  ⟨rfl, rfl, rfl⟩

/-- Claim C7: every element of `XavierInit().__call__((b, d))` lies in
the closed interval `[-sqrt(6/(b+d)), +sqrt(6/(b+d))]`, each element
being a fresh uniform draw `low + (high-low) * u_k` on that interval;
the hypothesis is numpy's contract that raw `random_sample` draws lie
in `[0, 1)`. -/
theorem xavierInit_call_bounds (u : ℕ → ℕ → ℝ)
    (hu : ∀ s k, 0 ≤ u s k ∧ u s k < 1)
    (rng? : Option Rng) (b d : ℕ) (i : Fin b) (j : Fin d) :
    -Real.sqrt (6 / ((b : ℝ) + (d : ℝ))) ≤
        XavierInit.call u (XavierInit.init rng?) b d i j ∧
      XavierInit.call u (XavierInit.init rng?) b d i j ≤
        Real.sqrt (6 / ((b : ℝ) + (d : ℝ))) := by
  set c : ℝ := Real.sqrt (6 / ((b : ℝ) + (d : ℝ))) with hc
  have hc0 : 0 ≤ c := Real.sqrt_nonneg _
  set k : ℕ := (XavierInit.init rng?).rng.counter + ((i : ℕ) * d + (j : ℕ)) with hk
  set s : ℕ := (XavierInit.init rng?).rng.seed with hs
  have hval : XavierInit.call u (XavierInit.init rng?) b d i j =
      -c + (c - -c) * u s k := rfl
  rcases hu s k with ⟨hu0, hu1⟩
  constructor
  · rw [hval]
    nlinarith
  · rw [hval]
    nlinarith

/-- Closed witness for claim C7: the all-zero raw stream satisfies the
`[0, 1)` contract, and the bounds hold at shape `(2, 3)`, element
`(0, 0)`, for the default-constructed instance. -/
theorem xavierInit_call_bounds_witness :
    (∀ s k : ℕ, 0 ≤ (fun _ _ => (0 : ℝ)) s k ∧ (fun _ _ => (0 : ℝ)) s k < 1) ∧
      (-Real.sqrt (6 / ((2 : ℝ) + (3 : ℝ))) ≤
          XavierInit.call (fun _ _ => 0) (XavierInit.init none) 2 3 0 0 ∧
        XavierInit.call (fun _ _ => 0) (XavierInit.init none) 2 3 0 0 ≤
          Real.sqrt (6 / ((2 : ℝ) + (3 : ℝ)))) := by
  have hu : ∀ s k : ℕ, 0 ≤ (fun _ _ => (0 : ℝ)) s k ∧ (fun _ _ => (0 : ℝ)) s k < 1 := by
    intro s k
    norm_num
  refine ⟨hu, ?_⟩
  have h := xavierInit_call_bounds (fun _ _ => 0) hu none 2 3 0 0
  norm_num at h ⊢
  exact h

/-- Claim C8: `SqrtInit.__call__` on a two-dimensional shape `(b, d)`
invokes the generator's normal sampler with `loc = 0` and
`scale = 1/sqrt(shape[1])` — the scaling dimension is `shape[1] = d`,
not `shape[0]` — so each produced element is exactly
`(1/sqrt d) *` a fresh raw standard-normal draw. -/
theorem sqrtInit_call_spec (g : ℕ → ℕ → ℝ) (rng? : Option Rng) (b d : ℕ)
    (i : Fin b) (j : Fin d) :
    SqrtInit.call g (SqrtInit.init rng?) b d =
        Rng.normal g (SqrtInit.init rng?).rng 0 (1 / Real.sqrt (d : ℝ)) b d ∧
      SqrtInit.call g (SqrtInit.init rng?) b d i j =
        1 / Real.sqrt (d : ℝ) *
          g (SqrtInit.init rng?).rng.seed
            ((SqrtInit.init rng?).rng.counter + ((i : ℕ) * d + (j : ℕ))) := by
  constructor
  · rfl
  · rw [SqrtInit.call, SqrtInit.init, Rng.normal]
    simp

/-- Claim C5 (divergence exhibit): handed the one-dimensional shape
`(3,)`, the `shape[1]` access that `SqrtInit.__call__` and
`KaimingInit.__call__` perform unconditionally has no value — in Python
an `IndexError` (`tuple index out of range`), not a shape-arity
diagnostic naming the expected dimension. -/
theorem sqrtInit_kaimingInit_one_dim_shape_index_fault :
    SqrtInit.scaleOf [3] = none ∧ KaimingInit.scaleOf [3] = none := by
  constructor
  · simp [SqrtInit.scaleOf]
  · simp [KaimingInit.scaleOf]

/-- Claim C9 (divergence exhibit): `UniformInit(low=5, high=2)` (with
`low > high`) and `NormalInit(mean=0, std=-1)` (with `std < 0`) both
construct successfully — the constructors store the parameters
unvalidated — and the `UniformInit` instance's first call then silently
returns a tensor (element `(0,0)` equal to `5` under the all-zero raw
stream) instead of any construction-time failure. -/
theorem uniformInit_normalInit_no_construction_validation :
    (UniformInit.init 5 2 none).low = 5 ∧
      (UniformInit.init 5 2 none).high = 2 ∧
      (NormalInit.init 0 (-1) none).std = -1 ∧
      (UniformInit.call (fun _ _ => 0) (UniformInit.init 5 2 none) 1 1).1 0 0 = 5 := by
  refine ⟨rfl, rfl, rfl, ?_⟩
  simp [UniformInit.call, UniformInit.init, Rng.uniform]

/-- Claim C4 (divergence exhibit): with `outputs = [[1, 2], [3, 4]]` of
shape `(2, 2)` and `targets = [[0, 0]]` of shape `(1, 2)` — mismatched
shapes — the code does not fail: numpy broadcasting silently replicates
the single target row and `__call__` returns the scalar `15 / 2`. -/
theorem sumOfSquaredDiffsError_call_broadcasts_mismatched_shapes :
    SumOfSquaredDiffsError.callRowBroadcast 2 2 !![1, 2; 3, 4] !![0, 0] = 15 / 2 := by
  rw [SumOfSquaredDiffsError.callRowBroadcast, Fintype.sum_prod_type]
  simp [Fin.sum_univ_two]
  norm_num

end MLP
